import Mathlib

/-!
Verification of the Sienci ATCi keepout-zone plugin
(src/3rdparty/sienci-atci-plugin/sienci-atci-plugin.c).

Shallow embedding: the C floats are modelled as exact rationals (ℚ); the
global mutable state is threaded explicitly.  Position arrays of N_AXIS
floats are modelled as a `Point`: the two planar components `x`, `y`
(X_AXIS, Y_AXIS) plus `rest`, the remaining axis components.  Previously
registered handlers (the hook chain) are modelled as optional functions.
-/

set_option maxHeartbeats 1000000

namespace SienciATCI

/-- C macro KEEPOUT_TOLERANCE (0.5f): the tool counts as trapped only when
deeper than this inside the zone. -/
def KEEPOUT_TOLERANCE : ℚ := 1/2

/-- C enum keepout_source_t: provenance of the last enable/disable
transition.  (The last constructor models the C constant for the
tool-change macro source.) -/
inductive keepout_source_t where
  | SOURCE_STARTUP
  | SOURCE_RACK
  | SOURCE_COMMAND
  | SOURCE_MACRO_TC
  deriving DecidableEq, Repr

/-- C union config_flags_t (bit 0, bit 1, bit 2).  The third field models
the C bit monitor_tc_macro. -/
structure config_flags_t where
  plugin_enabled : Bool
  monitor_rack_presence : Bool
  monitor_macro_tc : Bool
  deriving DecidableEq, Repr

/-- C struct atci_config_t: persistent bounds (stored unordered) and flags. -/
structure atci_config_t where
  x_min : ℚ
  y_min : ℚ
  x_max : ℚ
  y_max : ℚ
  flags : config_flags_t
  deriving DecidableEq, Repr

/-- C struct atci_rt_t: runtime-only state, with normalized cached bounds. -/
structure atci_rt where
  x_min : ℚ
  y_min : ℚ
  x_max : ℚ
  y_max : ℚ
  enabled : Bool
  source : keepout_source_t
  last_pin_state : Bool
  deriving DecidableEq, Repr

/-- A position/target vector (C: float[N_AXIS]).  `x`, `y` are the planar
components (X_AXIS, Y_AXIS); `rest` holds every non-planar axis component. -/
structure Point where
  x : ℚ
  y : ℚ
  rest : ℕ → ℚ

/-- The four operator message strings the plugin can report. -/
inductive Msg where
  | InsideZone
  | BlockedAtWall
  | Crossing
  | TargetInZone
  deriving DecidableEq, Repr

/-- C keepout_set(): build runtime cached min/max from persistent config
(normalizing the order with fminf/fmaxf). -/
def keepout_set (config : atci_config_t) (st : atci_rt) : atci_rt :=
  { st with
    x_min := min config.x_min config.x_max
    x_max := max config.x_min config.x_max
    y_min := min config.y_min config.y_max
    y_max := max config.y_min config.y_max }

/-- C is_keepout_active(): enforcement is active iff the plugin is
persistently enabled and the runtime keepout flag is set. -/
def is_keepout_active (flags : config_flags_t) (st : atci_rt) : Bool :=
  flags.plugin_enabled && st.enabled

/-- C set_keepout_state(): no-op unless the enabled flag or the source
differs from current. -/
def set_keepout_state (st : atci_rt) (new_state : Bool)
    (event_source : keepout_source_t) : atci_rt :=
  if st.enabled ≠ new_state ∨ st.source ≠ event_source then
    { st with enabled := new_state, source := event_source }
  else st

/-- One iteration of the Liang-Barsky loop body in
line_intersects_keepout / calculate_clipped_point: given the current
admissible interval `ts = (t0, t1)` and one half-plane constraint
`pq = (p, q)`, either reject (`none`) or tighten the interval
(`t = q / p` is written out at each use). -/
def clip_step (ts : ℚ × ℚ) (pq : ℚ × ℚ) : Option (ℚ × ℚ) :=
  if pq.1 = 0 then
    if pq.2 < 0 then none else some ts
  else if pq.1 < 0 then
    if ts.2 < pq.2 / pq.1 then none
    else if ts.1 < pq.2 / pq.1 then some (pq.2 / pq.1, ts.2) else some ts
  else
    if pq.2 / pq.1 < ts.1 then none
    else if pq.2 / pq.1 < ts.2 then some (ts.1, pq.2 / pq.1) else some ts

/-- The Liang-Barsky for-loop: fold `clip_step` over the constraint list. -/
def clip_fold : (ℚ × ℚ) → List (ℚ × ℚ) → Option (ℚ × ℚ)
  | ts, [] => some ts
  | ts, pq :: rest =>
    match clip_step ts pq with
    | none => none
    | some ts2 => clip_fold ts2 rest

/-- The arrays p[4] and q[4] built by both geometry functions, in loop
order, for the segment (x0,y0)-(x1,y1) against the rectangle held in the
runtime state. -/
def pq_list (st : atci_rt) (x0 y0 x1 y1 : ℚ) : List (ℚ × ℚ) :=
  [(-(x1 - x0), x0 - st.x_min),
   (x1 - x0, st.x_max - x0),
   (-(y1 - y0), y0 - st.y_min),
   (y1 - y0, st.y_max - y0)]

/-- C line_intersects_keepout(): Liang-Barsky clip; strict inequality so
that touching (t0 == t1) is not flagged as an intersection. -/
def line_intersects_keepout (st : atci_rt) (x0 y0 x1 y1 : ℚ) : Bool :=
  match clip_fold (0, 1) (pq_list st x0 y0 x1 y1) with
  | some ts => decide (ts.1 < ts.2)
  | none => false

/-- C calculate_clipped_point(): same parametric machinery; if the final
entry parameter t0 is strictly positive, return the point at t0 with all
non-planar axes copied from the destination; otherwise none. -/
def calculate_clipped_point (st : atci_rt) (start dest : Point) : Option Point :=
  match clip_fold (0, 1) (pq_list st start.x start.y dest.x dest.y) with
  | some ts =>
    if 0 < ts.1 then
      some { x := start.x + ts.1 * (dest.x - start.x)
             y := start.y + ts.1 * (dest.y - start.y)
             rest := dest.rest }
    else none
  | none => none

/-- The strictly_deep_inside predicate of travel_limits_check and
keepout_apply_travel_limits: strictly more than the tolerance past every
normalized boundary. -/
def strictly_deep_inside (st : atci_rt) (x y : ℚ) : Prop :=
  st.x_min + KEEPOUT_TOLERANCE < x ∧ x < st.x_max - KEEPOUT_TOLERANCE ∧
  st.y_min + KEEPOUT_TOLERANCE < y ∧ y < st.y_max - KEEPOUT_TOLERANCE

instance (st : atci_rt) (x y : ℚ) : Decidable (strictly_deep_inside st x y) := by
  unfold strictly_deep_inside; infer_instance

/-- The technically_inside predicate (and the inside_keepout_zone test of
the poller): within the bounds inclusive of the boundary lines. -/
def technically_inside (st : atci_rt) (x y : ℚ) : Prop :=
  st.x_min ≤ x ∧ x ≤ st.x_max ∧ st.y_min ≤ y ∧ y ≤ st.y_max

instance (st : atci_rt) (x y : ℚ) : Decidable (technically_inside st x y) := by
  unfold technically_inside; infer_instance

/-- C travel_limits_check(): the check (allow/deny) enforcement entry
point.  `prev_check` models the previously registered handler (applied to
the target), `pos` the planner position (NULL modelled as `none`).
Returns the boolean verdict and the message reported, if any. -/
def travel_limits_check (flags : config_flags_t) (st : atci_rt)
    (prev_check : Option (Point → Bool)) (pos : Option Point) (target : Point) :
    Bool × Option Msg :=
  if is_keepout_active flags st = false then
    (match prev_check with | some f => f target | none => true, none)
  else
    let xt := target.x
    let yt := target.y
    let x0 := match pos with | some p => p.x | none => 0
    let y0 := match pos with | some p => p.y | none => 0
    if strictly_deep_inside st xt yt then
      if strictly_deep_inside st x0 y0 ∨ technically_inside st x0 y0 then
        (false, some Msg.InsideZone)
      else
        (false, some Msg.TargetInZone)
    else if line_intersects_keepout st x0 y0 xt yt then
      if strictly_deep_inside st x0 y0 then
        (false, some Msg.InsideZone)
      else if technically_inside st x0 y0 then
        (false, some Msg.InsideZone)
      else
        (false, some Msg.Crossing)
    else
      (match prev_check with | some f => f target | none => true, none)

/-- C keepout_apply_travel_limits(): the apply (clamp) enforcement entry
point; returns the new target (the C code mutates `target` in place) and
the message reported, if any.  `prev_apply` models the previously
registered handler. -/
def keepout_apply_travel_limits (flags : config_flags_t) (st : atci_rt)
    (prev_apply : Option (Point → Point → Point))
    (target current_position : Point) : Point × Option Msg :=
  if is_keepout_active flags st = false then
    (match prev_apply with | some f => f target current_position | none => target, none)
  else
    let x0 := current_position.x
    let y0 := current_position.y
    let xt := target.x
    let yt := target.y
    if strictly_deep_inside st x0 y0 then
      (current_position, some Msg.InsideZone)
    else if strictly_deep_inside st xt yt ∨
            line_intersects_keepout st x0 y0 xt yt = true then
      match calculate_clipped_point st current_position target with
      | some clipped =>
        (clipped,
         some (if technically_inside st x0 y0 then Msg.InsideZone else Msg.BlockedAtWall))
      | none =>
        (current_position,
         some (if technically_inside st x0 y0 then Msg.InsideZone else Msg.BlockedAtWall))
    else
      (match prev_apply with | some f => f target current_position | none => target, none)

/-- The mutable module state of the plugin relevant to the hooks, poller and
settings: persistent config, runtime state, the tc_macro_running flag and
the cached sensor snapshot. -/
structure PluginState where
  config : atci_config_t
  atci : atci_rt
  tc_macro_running : Bool
  drawbar_state : Bool
  tool_sensor_state : Bool
  pressure_sensor_state : Bool
  inside_keepout_zone : Bool

/-- C keepout_tool_selected(): if the macro monitor flag is set, mark the
macro running and force-disable with the macro source. -/
def keepout_tool_selected (s : PluginState) : PluginState :=
  if s.config.flags.monitor_macro_tc then
    { s with tc_macro_running := true
             atci := set_keepout_state s.atci false keepout_source_t.SOURCE_MACRO_TC }
  else s

/-- C keepout_tool_changed(): if the macro monitor flag is set, clear the
macro flag and re-derive enabled from the rack reading, source Rack.
`rack_is_installed` is the inverted digital input read at that moment. -/
def keepout_tool_changed (s : PluginState) (rack_is_installed : Bool) : PluginState :=
  if s.config.flags.monitor_macro_tc then
    { s with tc_macro_running := false
             atci := set_keepout_state s.atci rack_is_installed keepout_source_t.SOURCE_RACK }
  else s

/-- The external inputs read by one invocation of poll_rack_sensor: the
four (already inverted) pin readings and the planner position (NULL
modelled as `none`). -/
structure PollInput where
  rack_pin_low : Bool
  drawbar_pin_low : Bool
  tool_pin_low : Bool
  pressure_pin_low : Bool
  pos : Option Point

/-- C poll_rack_sensor(): rack transition on a pin change (only when
monitoring), refresh the auxiliary sensor booleans, recompute the
inclusive inside_keepout_zone marker (false when no position). -/
def poll_rack_sensor (s : PluginState) (inp : PollInput) : PluginState :=
  let s1 :=
    if s.config.flags.monitor_rack_presence ∧ inp.rack_pin_low ≠ s.atci.last_pin_state then
      { s with atci := set_keepout_state { s.atci with last_pin_state := inp.rack_pin_low }
                         inp.rack_pin_low keepout_source_t.SOURCE_RACK }
    else s
  { s1 with
    drawbar_state := inp.drawbar_pin_low
    tool_sensor_state := inp.tool_pin_low
    pressure_sensor_state := inp.pressure_pin_low
    inside_keepout_zone :=
      match inp.pos with
      | some p => decide (technically_inside s1.atci p.x p.y)
      | none => false }

/-- C atci_restore(): reset PersistentConfig to fixed defaults, set the
runtime enabled flag, startup source and clear the pin snapshot, write to
NVS.  Note: it does not touch the runtime cached bounds. -/
def atci_restore (s : PluginState) : PluginState :=
  { s with
    config := { x_min := 10, y_min := 10, x_max := 50, y_max := 50
                flags := { plugin_enabled := false
                           monitor_rack_presence := false
                           monitor_macro_tc := false } }
    atci := { s.atci with enabled := true
                          source := keepout_source_t.SOURCE_STARTUP
                          last_pin_state := false } }

/-- C atci_load(): read PersistentConfig (a failed read, modelled as
`none`, falls back to atci_restore), then normalize the runtime bounds
with keepout_set, then enable with source Startup and clear the macro
flag. -/
def atci_load (nvs_read : Option atci_config_t) (s : PluginState) : PluginState :=
  let s1 := match nvs_read with
    | some cfg => { s with config := cfg }
    | none => atci_restore s
  let s2 := { s1 with atci := keepout_set s1.config s1.atci }
  { s2 with atci := set_keepout_state s2.atci true keepout_source_t.SOURCE_STARTUP
            tc_macro_running := false }

/-- The grblHAL status codes this plugin distinguishes. -/
inductive status_code_t where
  | Status_Unhandled
  | Status_OK
  | Status_GcodeValueOutOfRange
  deriving DecidableEq, Repr

/-- The slice of the parser block the M960 handlers read and write: the
user M-code number, the P word-present flag and the P value. -/
structure parser_block_t where
  user_mcode : ℕ
  word_p : Bool
  value_p : ℚ
  deriving DecidableEq, Repr

/-- C mcode_validate(): for M960, OK unless a P word with a value other
than 0.0 or 1.0 (then value-out-of-range); the P word is consumed either
way.  Unhandled codes delegate to the previous validate handler. -/
def mcode_validate (prev_validate : Option (parser_block_t → status_code_t × parser_block_t))
    (gc : parser_block_t) : status_code_t × parser_block_t :=
  let res : status_code_t × parser_block_t :=
    if gc.user_mcode = 960 then
      if gc.word_p then
        (if gc.value_p ≠ 0 ∧ gc.value_p ≠ 1 then
           status_code_t.Status_GcodeValueOutOfRange
         else status_code_t.Status_OK,
         { gc with word_p := false })
      else (status_code_t.Status_OK, gc)
    else (status_code_t.Status_Unhandled, gc)
  if res.1 = status_code_t.Status_Unhandled then
    match prev_validate with
    | some f => f res.2
    | none => res
  else res

/-- C mcode_execute(): result is (new runtime state, usage message
emitted, delegated to the previous execute handler).  `check_mode` models
state == STATE_CHECK_MODE. -/
def mcode_execute (check_mode : Bool) (gc : parser_block_t) (st : atci_rt) :
    atci_rt × Bool × Bool :=
  if gc.user_mcode ≠ 960 then (st, false, true)
  else if check_mode then (st, false, false)
  else if gc.word_p then
    (set_keepout_state st (decide (gc.value_p = 1)) keepout_source_t.SOURCE_COMMAND,
     false, false)
  else (st, true, false)

/-- The provenance character of the switch in onRealtimeReport. -/
def sourceChar : keepout_source_t → Char
  | keepout_source_t.SOURCE_RACK => 'R'
  | keepout_source_t.SOURCE_COMMAND => 'M'
  | keepout_source_t.SOURCE_MACRO_TC => 'T'
  | keepout_source_t.SOURCE_STARTUP => 'S'

/-- C onRealtimeReport(): the flag characters appended after "|ATCI:", in
program order. -/
def realtime_flags (s : PluginState) : List Char :=
  [sourceChar s.atci.source]
  ++ (if s.atci.enabled then ['E'] else [])
  ++ (if s.config.flags.monitor_rack_presence && s.atci.last_pin_state then ['I'] else [])
  ++ (if s.drawbar_state then ['B'] else [])
  ++ (if s.tool_sensor_state then ['L'] else [])
  ++ (if s.pressure_sensor_state then ['P'] else [])
  ++ (if s.inside_keepout_zone then ['Z'] else [])

/-! ### Helper lemmas -/

/-- set_keepout_state always results in the requested enabled flag and
source; every other field is untouched. -/
theorem set_keepout_state_eq (st : atci_rt) (b : Bool) (src : keepout_source_t) :
    set_keepout_state st b src = { st with enabled := b, source := src } := by
  unfold set_keepout_state
  split
  · rfl
  · rename_i h
    push_neg at h
    obtain ⟨h1, h2⟩ := h
    cases st
    simp only at h1 h2
    simp [h1, h2]

/-- If clip_step keeps going, the interval can only shrink, it stays
ordered, and every point of the new interval satisfies this constraint. -/
theorem clip_step_some_spec (ts pq u : ℚ × ℚ) (h : clip_step ts pq = some u) :
    ts.1 ≤ u.1 ∧ u.2 ≤ ts.2 ∧ (ts.1 ≤ ts.2 → u.1 ≤ u.2) ∧
    ∀ t : ℚ, u.1 ≤ t → t ≤ u.2 → pq.1 * t ≤ pq.2 := by
  unfold clip_step at h
  by_cases hp0 : pq.1 = 0
  · rw [if_pos hp0] at h
    by_cases hq : pq.2 < 0
    · rw [if_pos hq] at h; exact Option.noConfusion h
    · rw [if_neg hq] at h
      obtain rfl := Option.some.inj h
      refine ⟨le_rfl, le_rfl, id, fun t _ _ => ?_⟩
      rw [hp0, zero_mul]
      exact not_lt.mp hq
  · rw [if_neg hp0] at h
    by_cases hpn : pq.1 < 0
    · rw [if_pos hpn] at h
      by_cases h1 : ts.2 < pq.2 / pq.1
      · rw [if_pos h1] at h; exact Option.noConfusion h
      · rw [if_neg h1] at h
        by_cases h2 : ts.1 < pq.2 / pq.1
        · rw [if_pos h2] at h
          obtain rfl := Option.some.inj h
          refine ⟨le_of_lt h2, le_rfl, fun _ => not_lt.mp h1, fun t ht _ => ?_⟩
          rw [mul_comm]
          exact (div_le_iff_of_neg hpn).mp ht
        · rw [if_neg h2] at h
          obtain rfl := Option.some.inj h
          refine ⟨le_rfl, le_rfl, id, fun t ht _ => ?_⟩
          rw [mul_comm]
          exact (div_le_iff_of_neg hpn).mp (le_trans (not_lt.mp h2) ht)
    · have hpp : 0 < pq.1 := lt_of_le_of_ne (not_lt.mp hpn) (Ne.symm hp0)
      rw [if_neg hpn] at h
      by_cases h1 : pq.2 / pq.1 < ts.1
      · rw [if_pos h1] at h; exact Option.noConfusion h
      · rw [if_neg h1] at h
        by_cases h2 : pq.2 / pq.1 < ts.2
        · rw [if_pos h2] at h
          obtain rfl := Option.some.inj h
          refine ⟨le_rfl, le_of_lt h2, fun _ => not_lt.mp h1, fun t _ ht => ?_⟩
          rw [mul_comm]
          exact (le_div_iff₀ hpp).mp ht
        · rw [if_neg h2] at h
          obtain rfl := Option.some.inj h
          refine ⟨le_rfl, le_rfl, id, fun t _ ht => ?_⟩
          rw [mul_comm]
          exact (le_div_iff₀ hpp).mp (le_trans ht (not_lt.mp h2))

/-- If clip_step rejects, no point of the incoming interval satisfies
this constraint. -/
theorem clip_step_none_spec (ts pq : ℚ × ℚ) (h : clip_step ts pq = none) :
    ∀ t : ℚ, ts.1 ≤ t → t ≤ ts.2 → ¬ pq.1 * t ≤ pq.2 := by
  unfold clip_step at h
  intro t ht1 ht2
  by_cases hp0 : pq.1 = 0
  · rw [if_pos hp0] at h
    by_cases hq : pq.2 < 0
    · rw [hp0, zero_mul]
      exact not_le.mpr hq
    · rw [if_neg hq] at h; exact Option.noConfusion h
  · rw [if_neg hp0] at h
    by_cases hpn : pq.1 < 0
    · rw [if_pos hpn] at h
      by_cases h1 : ts.2 < pq.2 / pq.1
      · rw [not_le, mul_comm]
        exact (lt_div_iff_of_neg hpn).mp (lt_of_le_of_lt ht2 h1)
      · rw [if_neg h1] at h
        by_cases h2 : ts.1 < pq.2 / pq.1
        · rw [if_pos h2] at h; exact Option.noConfusion h
        · rw [if_neg h2] at h; exact Option.noConfusion h
    · have hpp : 0 < pq.1 := lt_of_le_of_ne (not_lt.mp hpn) (Ne.symm hp0)
      rw [if_neg hpn] at h
      by_cases h1 : pq.2 / pq.1 < ts.1
      · rw [not_le, mul_comm]
        exact (div_lt_iff₀ hpp).mp (lt_of_lt_of_le h1 ht1)
      · rw [if_neg h1] at h
        by_cases h2 : pq.2 / pq.1 < ts.2
        · rw [if_pos h2] at h; exact Option.noConfusion h
        · rw [if_neg h2] at h; exact Option.noConfusion h

/-- A point of the incoming interval that satisfies the constraint stays
in the tightened interval. -/
theorem clip_step_mem (ts pq u : ℚ × ℚ) (h : clip_step ts pq = some u)
    (t : ℚ) (ht1 : ts.1 ≤ t) (ht2 : t ≤ ts.2) (hc : pq.1 * t ≤ pq.2) :
    u.1 ≤ t ∧ t ≤ u.2 := by
  unfold clip_step at h
  by_cases hp0 : pq.1 = 0
  · rw [if_pos hp0] at h
    by_cases hq : pq.2 < 0
    · rw [if_pos hq] at h; exact Option.noConfusion h
    · rw [if_neg hq] at h
      obtain rfl := Option.some.inj h
      exact ⟨ht1, ht2⟩
  · rw [if_neg hp0] at h
    by_cases hpn : pq.1 < 0
    · rw [if_pos hpn] at h
      by_cases h1 : ts.2 < pq.2 / pq.1
      · rw [if_pos h1] at h; exact Option.noConfusion h
      · rw [if_neg h1] at h
        by_cases h2 : ts.1 < pq.2 / pq.1
        · rw [if_pos h2] at h
          obtain rfl := Option.some.inj h
          refine ⟨(div_le_iff_of_neg hpn).mpr ?_, ht2⟩
          rw [mul_comm] at hc
          exact hc
        · rw [if_neg h2] at h
          obtain rfl := Option.some.inj h
          exact ⟨ht1, ht2⟩
    · have hpp : 0 < pq.1 := lt_of_le_of_ne (not_lt.mp hpn) (Ne.symm hp0)
      rw [if_neg hpn] at h
      by_cases h1 : pq.2 / pq.1 < ts.1
      · rw [if_pos h1] at h; exact Option.noConfusion h
      · rw [if_neg h1] at h
        by_cases h2 : pq.2 / pq.1 < ts.2
        · rw [if_pos h2] at h
          obtain rfl := Option.some.inj h
          refine ⟨ht1, (le_div_iff₀ hpp).mpr ?_⟩
          rw [mul_comm] at hc
          exact hc
        · rw [if_neg h2] at h
          obtain rfl := Option.some.inj h
          exact ⟨ht1, ht2⟩

/-- The lower end of the interval is either untouched by clip_step or was
set to q / p by an entering constraint (p < 0). -/
theorem clip_step_t0 (ts pq u : ℚ × ℚ) (h : clip_step ts pq = some u) :
    u.1 = ts.1 ∨ (pq.1 < 0 ∧ u.1 = pq.2 / pq.1) := by
  unfold clip_step at h
  by_cases hp0 : pq.1 = 0
  · rw [if_pos hp0] at h
    by_cases hq : pq.2 < 0
    · rw [if_pos hq] at h; exact Option.noConfusion h
    · rw [if_neg hq] at h
      obtain rfl := Option.some.inj h
      exact Or.inl rfl
  · rw [if_neg hp0] at h
    by_cases hpn : pq.1 < 0
    · rw [if_pos hpn] at h
      by_cases h1 : ts.2 < pq.2 / pq.1
      · rw [if_pos h1] at h; exact Option.noConfusion h
      · rw [if_neg h1] at h
        by_cases h2 : ts.1 < pq.2 / pq.1
        · rw [if_pos h2] at h
          obtain rfl := Option.some.inj h
          exact Or.inr ⟨hpn, rfl⟩
        · rw [if_neg h2] at h
          obtain rfl := Option.some.inj h
          exact Or.inl rfl
    · rw [if_neg hpn] at h
      by_cases h1 : pq.2 / pq.1 < ts.1
      · rw [if_pos h1] at h; exact Option.noConfusion h
      · rw [if_neg h1] at h
        by_cases h2 : pq.2 / pq.1 < ts.2
        · rw [if_pos h2] at h
          obtain rfl := Option.some.inj h
          exact Or.inl rfl
        · rw [if_neg h2] at h
          obtain rfl := Option.some.inj h
          exact Or.inl rfl

/-- Fold version of clip_step_some_spec: a surviving interval shrank from
the original, is ordered, and satisfies every constraint of the list. -/
theorem clip_fold_some_spec (l : List (ℚ × ℚ)) (ts u : ℚ × ℚ)
    (h : clip_fold ts l = some u) :
    ts.1 ≤ u.1 ∧ u.2 ≤ ts.2 ∧ (ts.1 ≤ ts.2 → u.1 ≤ u.2) ∧
    ∀ pq ∈ l, ∀ t : ℚ, u.1 ≤ t → t ≤ u.2 → pq.1 * t ≤ pq.2 := by
  induction l generalizing ts with
  | nil =>
    unfold clip_fold at h
    obtain rfl := Option.some.inj h
    refine ⟨le_rfl, le_rfl, id, ?_⟩
    intro pq hmem
    exact absurd hmem (List.not_mem_nil pq)
  | cons pq rest ih =>
    unfold clip_fold at h
    revert h
    cases hstep : clip_step ts pq <;> intro h
    · exact Option.noConfusion h
    · rename_i ts2
      obtain ⟨h1, h2, h3, h4⟩ := clip_step_some_spec ts pq ts2 hstep
      obtain ⟨g1, g2, g3, g4⟩ := ih ts2 h
      refine ⟨le_trans h1 g1, le_trans g2 h2, fun hle => g3 (h3 hle), ?_⟩
      intro pq2 hmem t ht1 ht2
      rcases List.mem_cons.mp hmem with heq | hmem2
      · subst heq
        exact h4 t (le_trans g1 ht1) (le_trans ht2 g2)
      · exact g4 pq2 hmem2 t ht1 ht2

/-- Fold version of clip_step_none_spec: if the fold rejects, every point
of the incoming interval violates some constraint of the list. -/
theorem clip_fold_none_spec (l : List (ℚ × ℚ)) (ts : ℚ × ℚ)
    (h : clip_fold ts l = none) :
    ∀ t : ℚ, ts.1 ≤ t → t ≤ ts.2 → ∃ pq ∈ l, ¬ pq.1 * t ≤ pq.2 := by
  induction l generalizing ts with
  | nil => unfold clip_fold at h; exact Option.noConfusion h
  | cons pq rest ih =>
    unfold clip_fold at h
    revert h
    cases hstep : clip_step ts pq <;> intro h
    · intro t ht1 ht2
      exact ⟨pq, List.mem_cons_self pq rest, clip_step_none_spec ts pq hstep t ht1 ht2⟩
    · rename_i ts2
      intro t ht1 ht2
      by_cases hc : pq.1 * t ≤ pq.2
      · obtain ⟨m1, m2⟩ := clip_step_mem ts pq ts2 hstep t ht1 ht2 hc
        obtain ⟨pq2, hmem, hviol⟩ := ih ts2 h t m1 m2
        exact ⟨pq2, List.mem_cons_of_mem pq hmem, hviol⟩
      · exact ⟨pq, List.mem_cons_self pq rest, hc⟩

/-- Fold version of clip_step_t0: the final lower end is the original one
or the ratio q / p of some entering constraint of the list. -/
theorem clip_fold_t0 (l : List (ℚ × ℚ)) (ts u : ℚ × ℚ)
    (h : clip_fold ts l = some u) :
    u.1 = ts.1 ∨ ∃ pq ∈ l, pq.1 < 0 ∧ u.1 = pq.2 / pq.1 := by
  induction l generalizing ts with
  | nil =>
    unfold clip_fold at h
    obtain rfl := Option.some.inj h
    exact Or.inl rfl
  | cons pq rest ih =>
    unfold clip_fold at h
    revert h
    cases hstep : clip_step ts pq <;> intro h
    · exact Option.noConfusion h
    · rename_i ts2
      rcases ih ts2 h with heq | ⟨pq2, hmem, hneg, hval⟩
      · rcases clip_step_t0 ts pq ts2 hstep with h0 | ⟨hneg, hval⟩
        · exact Or.inl (heq.trans h0)
        · exact Or.inr ⟨pq, List.mem_cons_self pq rest, hneg, heq.trans hval⟩
      · exact Or.inr ⟨pq2, List.mem_cons_of_mem pq hmem, hneg, hval⟩

/-- Satisfying all four Liang-Barsky constraints at parameter t is the
same as the segment point at t lying in the closed rectangle. -/
theorem pq_constraint_iff (st : atci_rt) (x0 y0 x1 y1 t : ℚ) :
    (∀ pq ∈ pq_list st x0 y0 x1 y1, pq.1 * t ≤ pq.2) ↔
    technically_inside st (x0 + t * (x1 - x0)) (y0 + t * (y1 - y0)) := by
  unfold pq_list technically_inside
  simp only [List.forall_mem_cons]
  constructor
  · rintro ⟨h1, h2, h3, h4, -⟩
    refine ⟨by linarith, by linarith, by linarith, by linarith⟩
  · rintro ⟨h1, h2, h3, h4⟩
    refine ⟨by linarith, by linarith, by linarith, by linarith, ?_⟩
    intro pq hmem
    exact absurd hmem (List.not_mem_nil pq)

/-- A constraint with a strictly positive q never rejects a (0, t1)
interval with t1 positive, keeps the lower end at 0 and keeps the upper
end positive. -/
theorem clip_step_pos (p q t1 : ℚ) (hq : 0 < q) (ht1 : 0 < t1) :
    ∃ t1', clip_step (0, t1) (p, q) = some (0, t1') ∧ 0 < t1' := by
  unfold clip_step
  dsimp only
  by_cases hp0 : p = 0
  · rw [if_pos hp0, if_neg (not_lt.mpr (le_of_lt hq))]
    exact ⟨t1, rfl, ht1⟩
  · rw [if_neg hp0]
    by_cases hpn : p < 0
    · have hdiv : q / p < 0 := div_neg_of_pos_of_neg hq hpn
      rw [if_pos hpn, if_neg (not_lt.mpr (le_of_lt (lt_trans hdiv ht1))),
        if_neg (not_lt.mpr (le_of_lt hdiv))]
      exact ⟨t1, rfl, ht1⟩
    · have hpp : 0 < p := lt_of_le_of_ne (not_lt.mp hpn) (Ne.symm hp0)
      have hdiv : 0 < q / p := div_pos hq hpp
      rw [if_neg hpn, if_neg (not_lt.mpr (le_of_lt hdiv))]
      by_cases h2 : q / p < t1
      · rw [if_pos h2]
        exact ⟨q / p, rfl, hdiv⟩
      · rw [if_neg h2]
        exact ⟨t1, rfl, ht1⟩

/-- A segment starting strictly inside the open rectangle always
intersects: every q is positive, so the admissible interval keeps the
form (0, t1) with t1 positive, and 0 < t1 is reported as intersecting. -/
theorem inside_start_intersects (st : atci_rt) (x0 y0 x1 y1 : ℚ)
    (hx1 : st.x_min < x0) (hx2 : x0 < st.x_max)
    (hy1 : st.y_min < y0) (hy2 : y0 < st.y_max) :
    line_intersects_keepout st x0 y0 x1 y1 = true := by
  obtain ⟨a1, s1, p1⟩ := clip_step_pos (-(x1 - x0)) (x0 - st.x_min) 1 (by linarith) one_pos
  obtain ⟨a2, s2, p2⟩ := clip_step_pos (x1 - x0) (st.x_max - x0) a1 (by linarith) p1
  obtain ⟨a3, s3, p3⟩ := clip_step_pos (-(y1 - y0)) (y0 - st.y_min) a2 (by linarith) p2
  obtain ⟨a4, s4, p4⟩ := clip_step_pos (y1 - y0) (st.y_max - y0) a3 (by linarith) p3
  have hfold : clip_fold (0, 1) (pq_list st x0 y0 x1 y1) = some (0, a4) := by
    unfold pq_list
    simp only [clip_fold, s1, s2, s3, s4]
  unfold line_intersects_keepout
  rw [hfold]
  exact decide_eq_true p4

/-- The clipped point copies its non-planar axes from the destination. -/
theorem calculate_clipped_point_rest (st : atci_rt) (s d c : Point)
    (h : calculate_clipped_point st s d = some c) : c.rest = d.rest := by
  unfold calculate_clipped_point at h
  revert h
  cases hfold : clip_fold (0, 1) (pq_list st s.x s.y d.x d.y) <;> intro h
  · exact Option.noConfusion h
  · rename_i ts
    dsimp only at h
    by_cases ht : 0 < ts.1
    · rw [if_pos ht] at h
      obtain rfl := Option.some.inj h
      rfl
    · rw [if_neg ht] at h
      exact Option.noConfusion h

/-- An intersection verdict yields two distinct segment parameters inside
[0, 1] whose points are both in the closed rectangle. -/
theorem intersects_two_points (st : atci_rt) (x0 y0 x1 y1 : ℚ)
    (h : line_intersects_keepout st x0 y0 x1 y1 = true) :
    ∃ t u : ℚ, 0 ≤ t ∧ t < u ∧ u ≤ 1 ∧
      technically_inside st (x0 + t * (x1 - x0)) (y0 + t * (y1 - y0)) ∧
      technically_inside st (x0 + u * (x1 - x0)) (y0 + u * (y1 - y0)) := by
  unfold line_intersects_keepout at h
  revert h
  cases hfold : clip_fold (0, 1) (pq_list st x0 y0 x1 y1) <;> intro h
  · exact absurd h (by simp)
  · rename_i ts
    have hlt : ts.1 < ts.2 := of_decide_eq_true h
    obtain ⟨h0, h1, _, hall⟩ := clip_fold_some_spec _ _ _ hfold
    refine ⟨ts.1, ts.2, h0, hlt, h1, ?_, ?_⟩
    · exact (pq_constraint_iff st x0 y0 x1 y1 ts.1).mp
        (fun pq hm => hall pq hm ts.1 le_rfl (le_of_lt hlt))
    · exact (pq_constraint_iff st x0 y0 x1 y1 ts.2).mp
        (fun pq hm => hall pq hm ts.2 (le_of_lt hlt) le_rfl)

/-! ### Concrete fixtures used by witnesses and counterexamples -/

/-- A runtime state with the default zone (10..50 in both axes), enabled. -/
def st0 : atci_rt :=
  { x_min := 10, y_min := 10, x_max := 50, y_max := 50
    enabled := true, source := keepout_source_t.SOURCE_STARTUP, last_pin_state := false }

/-- Config flags with only the persistent plugin enable set. -/
def flags1 : config_flags_t :=
  { plugin_enabled := true, monitor_rack_presence := false, monitor_macro_tc := false }

/-- Config flags with the plugin disabled. -/
def flags0 : config_flags_t :=
  { plugin_enabled := false, monitor_rack_presence := false, monitor_macro_tc := false }

/-- A position with given planar coordinates and zero on every other axis. -/
def mkPoint (x y : ℚ) : Point := { x := x, y := y, rest := fun _ => 0 }

/-! ### Claims -/

/-- Claim C3: whenever plugin_enabled is false or the runtime enabled flag
is false, both enforcement entry points have no effect of their own: the
check path returns the verdict of the previously registered handler (or true
if none) and the apply path leaves the target to the previously
registered handler (or unchanged), with no message. -/
theorem claim_C3 (flags : config_flags_t) (st : atci_rt)
    (prev_check : Option (Point → Bool)) (prev_apply : Option (Point → Point → Point))
    (pos : Option Point) (target current : Point)
    (h : flags.plugin_enabled = false ∨ st.enabled = false) :
    travel_limits_check flags st prev_check pos target =
      (match prev_check with | some f => f target | none => true, none) ∧
    keepout_apply_travel_limits flags st prev_apply target current =
      (match prev_apply with | some f => f target current | none => target, none) := by
  have hact : is_keepout_active flags st = false := by
    unfold is_keepout_active
    rcases h with h | h <;> simp [h]
  constructor
  · unfold travel_limits_check
    rw [if_pos hact]
  · unfold keepout_apply_travel_limits
    rw [if_pos hact]

/-- Witness for claim C3 at a concrete disabled state. -/
theorem claim_C3_witness :
    (flags0.plugin_enabled = false ∨ st0.enabled = false) ∧
    travel_limits_check flags0 st0 none none (mkPoint 30 30) = (true, none) ∧
    keepout_apply_travel_limits flags0 st0 none (mkPoint 30 30) (mkPoint 0 0) =
      (mkPoint 30 30, none) := by
  have h := claim_C3 flags0 st0 none none none (mkPoint 30 30) (mkPoint 0 0)
    (Or.inl (by decide))
  exact ⟨Or.inl (by decide), h.1, h.2⟩

/-- Claim C9: with a null planner position the check path computes with
the start point (0, 0): its outcome on any destination equals the
outcome from an explicit origin position. -/
theorem claim_C9 (flags : config_flags_t) (st : atci_rt)
    (prev_check : Option (Point → Bool)) (target : Point) (r : ℕ → ℚ) :
    travel_limits_check flags st prev_check none target =
    travel_limits_check flags st prev_check (some { x := 0, y := 0, rest := r }) target := rfl

/-- Claim C6 counterexample: a restore operation performs no
bounds-normalization pass on the runtime state — from a runtime state
with crossed bounds, the bounds are still crossed after atci_restore. -/
def badState : PluginState :=
  { config := { x_min := 10, y_min := 10, x_max := 50, y_max := 50, flags := flags1 }
    atci := { x_min := 5, y_min := 0, x_max := 3, y_max := 0
              enabled := true, source := keepout_source_t.SOURCE_STARTUP
              last_pin_state := false }
    tc_macro_running := false, drawbar_state := false, tool_sensor_state := false
    pressure_sensor_state := false, inside_keepout_zone := false }

/-- Claim C6 counterexample: after atci_restore from badState the runtime
bounds remain crossed, so restore triggered no normalization pass. -/
theorem claim_C6_cex :
    (atci_restore badState).atci.x_max < (atci_restore badState).atci.x_min := by
  decide

/-- Claim C6 (amended): after load the runtime bounds are always
normalized — including when load falls back to restore — but a restore
operation by itself performs no normalization pass: it leaves the runtime
bounds exactly as they were. -/
theorem claim_C6 (s : PluginState) (nvs : Option atci_config_t) :
    ((atci_load nvs s).atci.x_min ≤ (atci_load nvs s).atci.x_max ∧
     (atci_load nvs s).atci.y_min ≤ (atci_load nvs s).atci.y_max) ∧
    ((atci_restore s).atci.x_min = s.atci.x_min ∧
     (atci_restore s).atci.x_max = s.atci.x_max ∧
     (atci_restore s).atci.y_min = s.atci.y_min ∧
     (atci_restore s).atci.y_max = s.atci.y_max) := by
  refine ⟨?_, rfl, rfl, rfl, rfl⟩
  unfold atci_load
  cases nvs <;>
    simp [set_keepout_state_eq, keepout_set, min_le_max]

/-- Claim C7: for M960, validation yields value-out-of-range exactly when
a P word is present with a value other than 0 or 1 (and validation never
touches the runtime state — it is a pure function of the parser block
here); execution in check mode has no effect; otherwise with a P word it
performs the Command transition with enabled = (P = 1), source Command,
and without a P word it leaves the state alone and emits the usage
message. -/
theorem claim_C7 (prev_validate : Option (parser_block_t → status_code_t × parser_block_t))
    (gc : parser_block_t) (st : atci_rt) (check_mode : Bool)
    (h960 : gc.user_mcode = 960) :
    ((mcode_validate prev_validate gc).1 = status_code_t.Status_GcodeValueOutOfRange ↔
      (gc.word_p = true ∧ gc.value_p ≠ 0 ∧ gc.value_p ≠ 1)) ∧
    (check_mode = true → mcode_execute check_mode gc st = (st, false, false)) ∧
    (check_mode = false → gc.word_p = true →
      mcode_execute check_mode gc st =
        (set_keepout_state st (decide (gc.value_p = 1)) keepout_source_t.SOURCE_COMMAND,
         false, false) ∧
      (mcode_execute check_mode gc st).1.enabled = decide (gc.value_p = 1) ∧
      (mcode_execute check_mode gc st).1.source = keepout_source_t.SOURCE_COMMAND) ∧
    (check_mode = false → gc.word_p = false →
      mcode_execute check_mode gc st = (st, true, false)) := by
  refine ⟨?_, ?_, ?_, ?_⟩
  · unfold mcode_validate
    by_cases hw : gc.word_p
    · by_cases hv : gc.value_p ≠ 0 ∧ gc.value_p ≠ 1
      · simp [h960, hw, hv]
      · simp [h960, hw, hv]
    · simp [h960, hw]
  · intro hc
    unfold mcode_execute
    simp [h960, hc]
  · intro hc hw
    unfold mcode_execute
    simp [h960, hc, hw, set_keepout_state_eq]
  · intro hc hw
    unfold mcode_execute
    simp [h960, hc, hw]

/-- Witness for claim C7: M960 P2 is rejected as value-out-of-range, and
M960 P1 outside check mode enables with source Command. -/
theorem claim_C7_witness :
    ((mcode_validate none { user_mcode := 960, word_p := true, value_p := 2 }).1 =
       status_code_t.Status_GcodeValueOutOfRange) ∧
    (mcode_execute false { user_mcode := 960, word_p := true, value_p := 1 } st0).1.enabled
      = true ∧
    (mcode_execute false { user_mcode := 960, word_p := true, value_p := 1 } st0).1.source
      = keepout_source_t.SOURCE_COMMAND := by
  refine ⟨?_, ?_, ?_⟩
  · exact (claim_C7 none { user_mcode := 960, word_p := true, value_p := 2 } st0 false
      rfl).1.mpr ⟨rfl, by decide, by decide⟩
  · have h := (claim_C7 none { user_mcode := 960, word_p := true, value_p := 1 } st0 false
      rfl).2.2.1 rfl rfl
    rw [h.2.1]
    decide
  · exact ((claim_C7 none { user_mcode := 960, word_p := true, value_p := 1 } st0 false
      rfl).2.2.1 rfl rfl).2.2

/-- Claim C8: for every state, the realtime flag string is built in this
fixed order with no separators: one provenance character (Startup to S,
Rack to R, Command to M, the macro source to T), then E exactly when the
runtime enabled flag is set, then I exactly when rack monitoring is
active and the last pin state is true, then B, L, P for the drawbar,
tool-sensor and pressure booleans when asserted, then Z exactly when
inside the zone; in particular a Startup, enabled, no-sensor,
inside-zone state yields exactly "SEZ". -/
theorem claim_C8 (s : PluginState) :
    (realtime_flags s =
      [sourceChar s.atci.source]
      ++ (if s.atci.enabled = true then ['E'] else [])
      ++ (if s.config.flags.monitor_rack_presence = true ∧ s.atci.last_pin_state = true
          then ['I'] else [])
      ++ (if s.drawbar_state = true then ['B'] else [])
      ++ (if s.tool_sensor_state = true then ['L'] else [])
      ++ (if s.pressure_sensor_state = true then ['P'] else [])
      ++ (if s.inside_keepout_zone = true then ['Z'] else [])) ∧
    (sourceChar keepout_source_t.SOURCE_STARTUP = 'S' ∧
     sourceChar keepout_source_t.SOURCE_RACK = 'R' ∧
     sourceChar keepout_source_t.SOURCE_COMMAND = 'M' ∧
     sourceChar keepout_source_t.SOURCE_MACRO_TC = 'T') ∧
    (s.atci.source = keepout_source_t.SOURCE_STARTUP → s.atci.enabled = true →
     (s.config.flags.monitor_rack_presence && s.atci.last_pin_state) = false →
     s.drawbar_state = false → s.tool_sensor_state = false →
     s.pressure_sensor_state = false → s.inside_keepout_zone = true →
     String.mk (realtime_flags s) = "SEZ") := by
  refine ⟨?_, ⟨rfl, rfl, rfl, rfl⟩, ?_⟩
  · unfold realtime_flags
    simp only [Bool.and_eq_true]
  · intro h1 h2 h3 h4 h5 h6 h7
    unfold realtime_flags
    rw [h1, h2, h3, h4, h5, h6, h7]
    rfl

/-- Witness for claim C8 at a concrete Startup/enabled/inside state. -/
def stateSEZ : PluginState :=
  { config := { x_min := 10, y_min := 10, x_max := 50, y_max := 50, flags := flags1 }
    atci := st0
    tc_macro_running := false, drawbar_state := false, tool_sensor_state := false
    pressure_sensor_state := false, inside_keepout_zone := true }

/-- Witness for claim C8: the flag list of stateSEZ is exactly S, E, Z
and the string is "SEZ". -/
theorem claim_C8_witness :
    realtime_flags stateSEZ = ['S', 'E', 'Z'] ∧
    String.mk (realtime_flags stateSEZ) = "SEZ" :=
  ⟨(claim_C8 stateSEZ).1.trans (by decide),
   (claim_C8 stateSEZ).2.2 rfl rfl rfl rfl rfl rfl rfl⟩

/-- Claim C1: with enforcement active and the start strictly more than
the tolerance inside every normalized boundary, the check path rejects
any destination and the apply path overwrites the target with the current
position, independent of the destination. -/
theorem claim_C1 (flags : config_flags_t) (st : atci_rt)
    (prev_check : Option (Point → Bool)) (prev_apply : Option (Point → Point → Point))
    (start target : Point)
    (hact : is_keepout_active flags st = true)
    (hdeep : strictly_deep_inside st start.x start.y) :
    (travel_limits_check flags st prev_check (some start) target).1 = false ∧
    (keepout_apply_travel_limits flags st prev_apply target start).1 = start := by
  have hdeep2 := hdeep
  unfold strictly_deep_inside at hdeep2
  unfold KEEPOUT_TOLERANCE at hdeep2
  obtain ⟨d1, d2, d3, d4⟩ := hdeep2
  have hx1 : st.x_min < start.x := by linarith
  have hx2 : start.x < st.x_max := by linarith
  have hy1 : st.y_min < start.y := by linarith
  have hy2 : start.y < st.y_max := by linarith
  have hins : technically_inside st start.x start.y := by
    unfold technically_inside
    exact ⟨le_of_lt hx1, le_of_lt hx2, le_of_lt hy1, le_of_lt hy2⟩
  have hint := inside_start_intersects st start.x start.y target.x target.y hx1 hx2 hy1 hy2
  constructor
  · by_cases ht : strictly_deep_inside st target.x target.y <;>
      simp [travel_limits_check, hact, hdeep, hins, hint, ht]
  · simp [keepout_apply_travel_limits, hact, hdeep]

/-- Witness for claim C1 at the example geometry of the spec: start (30,30)
deep inside the default 10..50 zone, destination (100,100). -/
theorem claim_C1_witness :
    is_keepout_active flags1 st0 = true ∧
    strictly_deep_inside st0 (mkPoint 30 30).x (mkPoint 30 30).y ∧
    (travel_limits_check flags1 st0 none (some (mkPoint 30 30)) (mkPoint 100 100)).1
      = false ∧
    (keepout_apply_travel_limits flags1 st0 none (mkPoint 100 100) (mkPoint 30 30)).1
      = mkPoint 30 30 := by
  have hdeep : strictly_deep_inside st0 (mkPoint 30 30).x (mkPoint 30 30).y := by
    norm_num [strictly_deep_inside, st0, mkPoint, KEEPOUT_TOLERANCE]
  have h := claim_C1 flags1 st0 none none (mkPoint 30 30) (mkPoint 100 100)
    (by decide) hdeep
  exact ⟨by decide, hdeep, h.1, h.2⟩

/-- Claim C10: when the apply path blocks (start deep-inside, or a
candidate move whose clipping fails), the new target is the current
position on every axis component; when it clips, the resulting target is
the clipped point, whose non-planar components equal those of the destination. -/
theorem claim_C10 (flags : config_flags_t) (st : atci_rt)
    (prev_apply : Option (Point → Point → Point)) (target current : Point)
    (hact : is_keepout_active flags st = true) :
    ((strictly_deep_inside st current.x current.y ∨
      ((strictly_deep_inside st target.x target.y ∨
        line_intersects_keepout st current.x current.y target.x target.y = true) ∧
       calculate_clipped_point st current target = none)) →
      (keepout_apply_travel_limits flags st prev_apply target current).1 = current) ∧
    (¬ strictly_deep_inside st current.x current.y →
     (strictly_deep_inside st target.x target.y ∨
      line_intersects_keepout st current.x current.y target.x target.y = true) →
     ∀ c, calculate_clipped_point st current target = some c →
       (keepout_apply_travel_limits flags st prev_apply target current).1 = c ∧
       c.rest = target.rest) := by
  constructor
  · intro hblock
    by_cases hd : strictly_deep_inside st current.x current.y
    · simp [keepout_apply_travel_limits, hact, hd]
    · rcases hblock with hd2 | ⟨hcond, hclip⟩
      · exact absurd hd2 hd
      · simp [keepout_apply_travel_limits, hact, hd, hcond, hclip]
  · intro hd hcond c hclip
    refine ⟨?_, calculate_clipped_point_rest st current target c hclip⟩
    simp [keepout_apply_travel_limits, hact, hd, hcond, hclip]

/-- Witness for claim C10 at the worked example of the spec: from (0,0) towards
(30,30) the move is clipped to the boundary point (10,10), preserving the
non-planar components of the destination. -/
theorem claim_C10_witness :
    calculate_clipped_point st0 (mkPoint 0 0) (mkPoint 30 30) = some (mkPoint 10 10) ∧
    (keepout_apply_travel_limits flags1 st0 none (mkPoint 30 30) (mkPoint 0 0)).1
      = mkPoint 10 10 ∧
    (mkPoint 10 10).rest = (mkPoint 30 30).rest := by
  have hclip : calculate_clipped_point st0 (mkPoint 0 0) (mkPoint 30 30)
      = some (mkPoint 10 10) := by
    norm_num [calculate_clipped_point, pq_list, clip_fold, clip_step, st0, mkPoint]
  have h := (claim_C10 flags1 st0 none (mkPoint 30 30) (mkPoint 0 0) (by decide)).2
    (by norm_num [strictly_deep_inside, st0, mkPoint, KEEPOUT_TOLERANCE])
    (Or.inl (by norm_num [strictly_deep_inside, st0, mkPoint, KEEPOUT_TOLERANCE]))
    (mkPoint 10 10) hclip
  exact ⟨hclip, h.1, h.2⟩

/-- Claim C4 counterexample: a zero-length move at the boundary of the
default zone (start = destination = (10,30), on the line x = x_min) IS
reported as intersecting: its admissible interval stays (0,1), so the
strict rule does not exclude it. -/
theorem claim_C4_cex :
    line_intersects_keepout st0 10 30 10 30 = true ∧
    st0.x_min = 10 ∧ technically_inside st0 10 30 := by
  refine ⟨?_, by decide, ?_⟩
  · norm_num [line_intersects_keepout, pq_list, clip_fold, clip_step, st0]
  · unfold technically_inside
    norm_num [st0]

/-- Claim C4 (amended): the intersection test returns true exactly when
the final admissible interval satisfies strict inequality t0 < t1; a
segment that stays outside the closed rectangle for every parameter in
[0,1] never intersects; a segment meeting the rectangle in at most one
parameter point (a tangent touch with zero-length overlap) is not
reported as intersecting; but a zero-length move whose point lies in the
closed rectangle — including exactly on the boundary — IS reported as
intersecting. -/
theorem claim_C4 (st : atci_rt) (x0 y0 x1 y1 : ℚ) :
    (line_intersects_keepout st x0 y0 x1 y1 = true ↔
      ∃ ts : ℚ × ℚ, clip_fold (0, 1) (pq_list st x0 y0 x1 y1) = some ts ∧ ts.1 < ts.2) ∧
    ((∀ t : ℚ, 0 ≤ t → t ≤ 1 →
        ¬ technically_inside st (x0 + t * (x1 - x0)) (y0 + t * (y1 - y0))) →
      line_intersects_keepout st x0 y0 x1 y1 = false) ∧
    ((∀ t u : ℚ, 0 ≤ t → t ≤ 1 → 0 ≤ u → u ≤ 1 →
        technically_inside st (x0 + t * (x1 - x0)) (y0 + t * (y1 - y0)) →
        technically_inside st (x0 + u * (x1 - x0)) (y0 + u * (y1 - y0)) → t = u) →
      line_intersects_keepout st x0 y0 x1 y1 = false) ∧
    (x1 = x0 → y1 = y0 → technically_inside st x0 y0 →
      line_intersects_keepout st x0 y0 x1 y1 = true) := by
  refine ⟨?_, ?_, ?_, ?_⟩
  · unfold line_intersects_keepout
    cases hfold : clip_fold (0, 1) (pq_list st x0 y0 x1 y1) <;> simp
  · intro hmiss
    cases hline : line_intersects_keepout st x0 y0 x1 y1 with
    | false => rfl
    | true =>
      obtain ⟨t, u, ht0, htu, hu1, hmem, _⟩ := intersects_two_points st x0 y0 x1 y1 hline
      exact absurd hmem (hmiss t ht0 (le_of_lt (lt_of_lt_of_le htu hu1)))
  · intro htang
    cases hline : line_intersects_keepout st x0 y0 x1 y1 with
    | false => rfl
    | true =>
      obtain ⟨t, u, ht0, htu, hu1, hmemt, hmemu⟩ :=
        intersects_two_points st x0 y0 x1 y1 hline
      have := htang t u ht0 (le_of_lt (lt_of_lt_of_le htu hu1))
        (le_trans ht0 (le_of_lt htu)) hu1 hmemt hmemu
      exact absurd this (ne_of_lt htu)
  · intro hx hy hin
    subst hx
    subst hy
    obtain ⟨i1, i2, i3, i4⟩ := hin
    have q1 : ¬ (x1 < st.x_min) := not_lt.mpr i1
    have q2 : ¬ (st.x_max < x1) := not_lt.mpr i2
    have q3 : ¬ (y1 < st.y_min) := not_lt.mpr i3
    have q4 : ¬ (st.y_max < y1) := not_lt.mpr i4
    unfold line_intersects_keepout pq_list
    simp only [sub_self, neg_zero]
    simp [clip_fold, clip_step, q1, q2, q3, q4]

/-- Witness for claim C4 at concrete geometries: a fully outside segment
does not intersect, and a zero-length move inside the closed rectangle
does. -/
theorem claim_C4_witness :
    ((∀ t : ℚ, 0 ≤ t → t ≤ 1 →
        ¬ technically_inside st0 (0 + t * (5 - 0)) (0 + t * (5 - 0))) →
      line_intersects_keepout st0 0 0 5 5 = false) ∧
    line_intersects_keepout st0 0 0 5 5 = false ∧
    line_intersects_keepout st0 30 30 30 30 = true := by
  refine ⟨(claim_C4 st0 0 0 5 5).2.1, ?_, ?_⟩
  · refine (claim_C4 st0 0 0 5 5).2.1 ?_
    intro t ht0 ht1 hmem
    obtain ⟨i1, -⟩ := hmem
    have hx : st0.x_min = 10 := by decide
    rw [hx] at i1
    linarith
  · refine (claim_C4 st0 30 30 30 30).2.2.2 rfl rfl ?_
    unfold technically_inside
    norm_num [st0]

/-- Claim C5: whenever calculate_clipped_point returns a point, that
point lies exactly on one of the four normalized boundary lines, comes
from a segment parameter within [0,1], and its non-planar components
equal those of the destination; it returns none exactly when the entry
parameter of the admissible interval is ≤ 0 or the segment misses the
closed rectangle over [0,1]. -/
theorem claim_C5 (st : atci_rt) (s d : Point) :
    (∀ c, calculate_clipped_point st s d = some c →
      (c.x = st.x_min ∨ c.x = st.x_max ∨ c.y = st.y_min ∨ c.y = st.y_max) ∧
      (∃ t : ℚ, 0 ≤ t ∧ t ≤ 1 ∧
        c.x = s.x + t * (d.x - s.x) ∧ c.y = s.y + t * (d.y - s.y)) ∧
      c.rest = d.rest) ∧
    (calculate_clipped_point st s d = none ↔
      ((∀ t : ℚ, 0 ≤ t → t ≤ 1 →
         ¬ technically_inside st (s.x + t * (d.x - s.x)) (s.y + t * (d.y - s.y))) ∨
       ∃ ts : ℚ × ℚ,
         clip_fold (0, 1) (pq_list st s.x s.y d.x d.y) = some ts ∧ ts.1 ≤ 0)) := by
  constructor
  · intro c hc
    have hrest := calculate_clipped_point_rest st s d c hc
    unfold calculate_clipped_point at hc
    revert hc
    cases hfold : clip_fold (0, 1) (pq_list st s.x s.y d.x d.y) <;> intro hc
    · exact Option.noConfusion hc
    · rename_i ts
      dsimp only at hc
      by_cases ht : 0 < ts.1
      · rw [if_pos ht] at hc
        obtain rfl := Option.some.inj hc
        refine ⟨?_, ?_, hrest⟩
        · obtain h0 | ⟨pq, hmem, hneg, hval⟩ := clip_fold_t0 _ _ _ hfold
          · rw [h0] at ht
            exact absurd ht (lt_irrefl 0)
          · simp only [pq_list, List.mem_cons, List.not_mem_nil, or_false] at hmem
            rcases hmem with rfl | rfl | rfl | rfl <;> dsimp only at hneg hval
            · have hdx : d.x - s.x ≠ 0 := by
                intro h0
                rw [h0, neg_zero] at hneg
                exact absurd hneg (lt_irrefl 0)
              refine Or.inl ?_
              show s.x + ts.1 * (d.x - s.x) = st.x_min
              rw [hval, div_neg, neg_mul, div_mul_cancel₀ _ hdx]
              ring
            · have hdx : d.x - s.x ≠ 0 := ne_of_lt hneg
              refine Or.inr (Or.inl ?_)
              show s.x + ts.1 * (d.x - s.x) = st.x_max
              rw [hval, div_mul_cancel₀ _ hdx]
              ring
            · have hdy : d.y - s.y ≠ 0 := by
                intro h0
                rw [h0, neg_zero] at hneg
                exact absurd hneg (lt_irrefl 0)
              refine Or.inr (Or.inr (Or.inl ?_))
              show s.y + ts.1 * (d.y - s.y) = st.y_min
              rw [hval, div_neg, neg_mul, div_mul_cancel₀ _ hdy]
              ring
            · have hdy : d.y - s.y ≠ 0 := ne_of_lt hneg
              refine Or.inr (Or.inr (Or.inr ?_))
              show s.y + ts.1 * (d.y - s.y) = st.y_max
              rw [hval, div_mul_cancel₀ _ hdy]
              ring
        · obtain ⟨h0, h1, hord, -⟩ := clip_fold_some_spec _ _ _ hfold
          exact ⟨ts.1, h0, le_trans (hord (by norm_num)) h1, rfl, rfl⟩
      · rw [if_neg ht] at hc
        exact Option.noConfusion hc
  · constructor
    · intro hnone
      unfold calculate_clipped_point at hnone
      revert hnone
      cases hfold : clip_fold (0, 1) (pq_list st s.x s.y d.x d.y) <;> intro hnone
      · refine Or.inl ?_
        intro t ht0 ht1 hmem
        obtain ⟨pq, hpqmem, hviol⟩ := clip_fold_none_spec _ _ hfold t ht0 ht1
        exact hviol ((pq_constraint_iff st s.x s.y d.x d.y t).mpr hmem pq hpqmem)
      · rename_i ts
        dsimp only at hnone
        by_cases ht : 0 < ts.1
        · rw [if_pos ht] at hnone
          exact Option.noConfusion hnone
        · exact Or.inr ⟨ts, rfl, not_lt.mp ht⟩
    · intro hcase
      unfold calculate_clipped_point
      cases hfold : clip_fold (0, 1) (pq_list st s.x s.y d.x d.y) with
      | none => rfl
      | some ts =>
        dsimp only
        rcases hcase with hmiss | ⟨ts2, hfold2, hle⟩
        · exfalso
          obtain ⟨h0, h1, hord, hall⟩ := clip_fold_some_spec _ _ _ hfold
          have hin := (pq_constraint_iff st s.x s.y d.x d.y ts.1).mp
            (fun pq hm => hall pq hm ts.1 le_rfl (hord (by norm_num)))
          exact hmiss ts.1 h0 (le_trans (hord (by norm_num)) h1) hin
        · rw [hfold] at hfold2
          obtain rfl := Option.some.inj hfold2
          rw [if_neg (not_lt.mpr hle)]

/-- Witness for claim C5: clipping from (0,0) to (30,30) in the default
zone yields a point on the boundary line x = x_min. -/
theorem claim_C5_witness :
    calculate_clipped_point st0 (mkPoint 0 0) (mkPoint 30 30) = some (mkPoint 10 10) ∧
    ((mkPoint 10 10).x = st0.x_min ∨ (mkPoint 10 10).x = st0.x_max ∨
     (mkPoint 10 10).y = st0.y_min ∨ (mkPoint 10 10).y = st0.y_max) ∧
    (mkPoint 10 10).rest = (mkPoint 30 30).rest := by
  have hclip : calculate_clipped_point st0 (mkPoint 0 0) (mkPoint 30 30)
      = some (mkPoint 10 10) := by
    norm_num [calculate_clipped_point, pq_list, clip_fold, clip_step, st0, mkPoint]
  have h := (claim_C5 st0 (mkPoint 0 0) (mkPoint 30 30)).1 (mkPoint 10 10) hclip
  exact ⟨hclip, h.1, h.2.2⟩

/-- With rack-presence monitoring off, a sensor poll only refreshes the
auxiliary sensor booleans and the inside-zone marker: config, runtime
state and the macro flag are untouched; folded over any poll sequence. -/
theorem poll_foldl_inv (polls : List PollInput) (s : PluginState)
    (hr : s.config.flags.monitor_rack_presence = false) :
    (polls.foldl poll_rack_sensor s).config = s.config ∧
    (polls.foldl poll_rack_sensor s).atci = s.atci ∧
    (polls.foldl poll_rack_sensor s).tc_macro_running = s.tc_macro_running := by
  induction polls generalizing s with
  | nil => exact ⟨rfl, rfl, rfl⟩
  | cons inp rest ih =>
    have hstep : (poll_rack_sensor s inp).config = s.config ∧
        (poll_rack_sensor s inp).atci = s.atci ∧
        (poll_rack_sensor s inp).tc_macro_running = s.tc_macro_running := by
      unfold poll_rack_sensor
      simp [hr]
    obtain ⟨c1, c2, c3⟩ := hstep
    have hr2 : (poll_rack_sensor s inp).config.flags.monitor_rack_presence = false := by
      rw [c1]
      exact hr
    obtain ⟨d1, d2, d3⟩ := ih (poll_rack_sensor s inp) hr2
    rw [List.foldl_cons]
    exact ⟨d1.trans c1, d2.trans c2, d3.trans c3⟩

/-- Claim C2 counterexample state: all three config flags on (plugin
enabled, rack monitored, macro monitored), rack pin last seen false. -/
def s_cex : PluginState :=
  { config := { x_min := 10, y_min := 10, x_max := 50, y_max := 50
                flags := { plugin_enabled := true, monitor_rack_presence := true
                           monitor_macro_tc := true } }
    atci := st0
    tc_macro_running := false, drawbar_state := false, tool_sensor_state := false
    pressure_sensor_state := false, inside_keepout_zone := false }

/-- A poll input observing the rack pin asserted. -/
def pollRackOn : PollInput :=
  { rack_pin_low := true, drawbar_pin_low := false, tool_pin_low := false
    pressure_pin_low := false, pos := none }

/-- Claim C2 counterexample: with rack monitoring also enabled, a sensor
poll that observes a rack-pin change between the tool-selection hook and
the completion hook re-enables enforcement while the macro-running flag
is still set — the poller does not consult the macro flag. -/
theorem claim_C2_cex :
    (poll_rack_sensor (keepout_tool_selected s_cex) pollRackOn).tc_macro_running = true ∧
    is_keepout_active
      (poll_rack_sensor (keepout_tool_selected s_cex) pollRackOn).config.flags
      (poll_rack_sensor (keepout_tool_selected s_cex) pollRackOn).atci = true := by
  constructor <;> decide

/-- Claim C2 (amended): while the macro-running flag is set, enforcement
stays inactive across any sequence of sensor polls provided rack-presence
monitoring is disabled (with it enabled, an intervening poll observing a
pin change can re-enable enforcement during the macro); when the
tool-change-completed hook fires, the macro flag is cleared and enabled
is re-derived from the current rack reading with source Rack. -/
theorem claim_C2 (s s2 : PluginState) (polls : List PollInput)
    (hm : s.config.flags.monitor_macro_tc = true)
    (hr : s.config.flags.monitor_rack_presence = false)
    (hs2 : s2 = polls.foldl poll_rack_sensor (keepout_tool_selected s)) :
    s2.tc_macro_running = true ∧
    s2.atci.enabled = false ∧
    is_keepout_active s2.config.flags s2.atci = false ∧
    ∀ rack : Bool,
      (keepout_tool_changed s2 rack).tc_macro_running = false ∧
      (keepout_tool_changed s2 rack).atci.enabled = rack ∧
      (keepout_tool_changed s2 rack).atci.source = keepout_source_t.SOURCE_RACK := by
  subst hs2
  have hsel : (keepout_tool_selected s).config = s.config ∧
      (keepout_tool_selected s).atci.enabled = false ∧
      (keepout_tool_selected s).tc_macro_running = true := by
    unfold keepout_tool_selected
    rw [if_pos hm]
    exact ⟨rfl, by rw [set_keepout_state_eq], rfl⟩
  obtain ⟨e1, e2, e3⟩ := hsel
  have hr1 : (keepout_tool_selected s).config.flags.monitor_rack_presence = false := by
    rw [e1]
    exact hr
  obtain ⟨f1, f2, f3⟩ := poll_foldl_inv polls (keepout_tool_selected s) hr1
  have hen : (polls.foldl poll_rack_sensor (keepout_tool_selected s)).atci.enabled
      = false := by rw [f2]; exact e2
  have hmac : (polls.foldl poll_rack_sensor
      (keepout_tool_selected s)).config.flags.monitor_macro_tc = true := by
    rw [f1, e1]
    exact hm
  refine ⟨by rw [f3]; exact e3, hen, ?_, ?_⟩
  · unfold is_keepout_active
    rw [hen, Bool.and_false]
  · intro rack
    unfold keepout_tool_changed
    rw [if_pos hmac]
    refine ⟨rfl, ?_, ?_⟩ <;> rw [set_keepout_state_eq]

/-- Witness for claim C2: with rack monitoring off, after the selection
hook and one poll the macro flag is set and enforcement inactive, and the
completion hook re-derives enabled from the rack reading. -/
def s_mac : PluginState :=
  { config := { x_min := 10, y_min := 10, x_max := 50, y_max := 50
                flags := { plugin_enabled := true, monitor_rack_presence := false
                           monitor_macro_tc := true } }
    atci := st0
    tc_macro_running := false, drawbar_state := false, tool_sensor_state := false
    pressure_sensor_state := false, inside_keepout_zone := false }

/-- Witness for claim C2 at s_mac with one intervening poll. -/
theorem claim_C2_witness :
    ([pollRackOn].foldl poll_rack_sensor (keepout_tool_selected s_mac)).tc_macro_running
      = true ∧
    is_keepout_active
      ([pollRackOn].foldl poll_rack_sensor (keepout_tool_selected s_mac)).config.flags
      ([pollRackOn].foldl poll_rack_sensor (keepout_tool_selected s_mac)).atci = false ∧
    (keepout_tool_changed
      ([pollRackOn].foldl poll_rack_sensor (keepout_tool_selected s_mac)) true).atci.source
      = keepout_source_t.SOURCE_RACK := by
  have h := claim_C2 s_mac
    ([pollRackOn].foldl poll_rack_sensor (keepout_tool_selected s_mac))
    [pollRackOn] (by decide) (by decide) rfl
  exact ⟨h.1, h.2.2.1, (h.2.2.2 true).2.2⟩

end SienciATCI
